import Mathlib

/-!
Verification development for the user-management API
(`server.js`, `config.js`, `routes/auth.js`, and the documented
`models/User.js` / `controllers/authController.js` / `middleware/auth.js`).

The JavaScript sources are shallowly embedded as pure Lean functions:
the MongoDB collection becomes a list of records, each Express handler a
function from (store, request) to (store, response), and the mongoose
model's save pipeline an explicit `Except`-valued function.
-/

/-- Lowercase a single ASCII character, as `String.prototype.toLowerCase`
and the mongoose `lowercase: true` setter do on ASCII input. -/
def lowerChar (c : Char) : Char :=
  if 'A' ≤ c ∧ c ≤ 'Z' then Char.ofNat (c.toNat + 32) else c

/-- Lowercase a string (model of `email.toLowerCase()` in `server.js`
and of the schema's `lowercase: true` setter). -/
def lowerStr (s : String) : String :=
  ⟨s.data.map lowerChar⟩

/-- Bool test: does the pattern occur at the head of the list. -/
def leadsWith : List Char → List Char → Bool
  | [], _ => true
  | _ :: _, [] => false
  | a :: as, b :: bs => a == b && leadsWith as bs

/-- Bool test: does the pattern occur as a contiguous segment of the list. -/
def hasSegment (p : List Char) : List Char → Bool
  | [] => leadsWith p []
  | c :: rest => leadsWith p (c :: rest) || hasSegment p rest

/-- Case-insensitive literal substring test — the "name/email contains
the given substring" reading used by the spec.  The `$regex` filters of
the code are embedded separately by `regexMatchCI` below; the two agree
exactly on patterns free of regex metacharacters
(`regexMatchCI_eq_containsCI`). -/
def containsCI (pat s : String) : Bool :=
  hasSegment (lowerStr pat).data (lowerStr s).data

/-- A single regex atom: a literal character or the `.` wildcard. -/
inductive RAtom where
  | lit : Char → RAtom
  | dot : RAtom

/-- Does an atom match one character, under the `i` flag (ASCII case
folding)?  `.` matches any character except the ECMAScript line
terminators. -/
def atomMatch : RAtom → Char → Bool
  | .lit c, x => lowerChar c == lowerChar x
  | .dot, x =>
    !(x == '\n' || x == '\r' ||
      x == Char.ofNat 0x2028 || x == Char.ofNat 0x2029)

/-- A regex piece: an atom, possibly under a `*`, `+` or `?`
quantifier. -/
inductive RPiece where
  | once : RAtom → RPiece
  | star : RAtom → RPiece
  | plus : RAtom → RPiece
  | opt : RAtom → RPiece

/-- All suffixes of the input reachable by consuming zero or more
characters matching the atom (the backtracking choices of `*`). -/
def starSuffixes (a : RAtom) : List Char → List (List Char)
  | [] => [[]]
  | c :: cs => (c :: cs) :: (if atomMatch a c then starSuffixes a cs else [])

/-- Match a piece list against a prefix of the input (anchored at the
current position), with backtracking for the quantifiers. -/
def matchHere : List RPiece → List Char → Bool
  | [], _ => true
  | .once _ :: _, [] => false
  | .once a :: ps, c :: cs => atomMatch a c && matchHere ps cs
  | .opt _ :: ps, [] => matchHere ps []
  | .opt a :: ps, c :: cs =>
    matchHere ps (c :: cs) || (atomMatch a c && matchHere ps cs)
  | .star a :: ps, cs => (starSuffixes a cs).any (fun suf => matchHere ps suf)
  | .plus _ :: _, [] => false
  | .plus a :: ps, c :: cs =>
    atomMatch a c && (starSuffixes a cs).any (fun suf => matchHere ps suf)

/-- Unanchored search: does the pattern match at some position of the
input, as an ECMAScript `RegExp.test` / MongoDB `$regex` does. -/
def regexSearch (ps : List RPiece) : List Char → Bool
  | [] => matchHere ps []
  | c :: cs => matchHere ps (c :: cs) || regexSearch ps cs

/-- A lexer token of the pattern: an atom, or a quantifier character
waiting to be attached to the preceding atom. -/
inductive RTok where
  | atom : RAtom → RTok
  | quant : Char → RTok

/-- Lex a pattern string: backslash escapes make the next character a
literal, `.` is the wildcard, `*` / `+` / `?` are quantifiers, and every
other character is a literal. -/
def lexPattern : List Char → List RTok
  | [] => []
  | '\\' :: c :: rest => .atom (.lit c) :: lexPattern rest
  | '.' :: rest => .atom .dot :: lexPattern rest
  | '*' :: rest => .quant '*' :: lexPattern rest
  | '+' :: rest => .quant '+' :: lexPattern rest
  | '?' :: rest => .quant '?' :: lexPattern rest
  | c :: rest => .atom (.lit c) :: lexPattern rest

/-- Attach each quantifier token to the atom it follows (a stray leading
quantifier, a syntax error in ECMAScript, is skipped). -/
def groupPieces : List RTok → List RPiece
  | [] => []
  | .atom a :: .quant q :: rest =>
    (if q = '*' then RPiece.star a else if q = '+' then RPiece.plus a
     else RPiece.opt a) :: groupPieces rest
  | .atom a :: rest => .once a :: groupPieces rest
  | .quant _ :: rest => groupPieces rest

/-- The `$regex` / `$options: 'i'` filter built by the GET `/api/users`
handler of `server.js` (lines 36 and 41): the raw query parameter is
interpreted as a case-insensitive regular expression, not as a literal
substring.  The modelled regex fragment covers literal characters,
backslash escapes, the `.` wildcard, and the `*` / `+` / `?` quantifiers
on single atoms; character classes, groups, anchors, alternation and
counted repetition are outside the model, and no theorem below depends
on a pattern using them. -/
def regexMatchCI (pat s : String) : Bool :=
  regexSearch (groupPieces (lexPattern pat.data)) s.data

/-- The ECMAScript regex syntax characters (for a pattern coming from a
string, as `new RegExp(string)` receives it). -/
def regexMetaChars : List Char :=
  ['.', '*', '+', '?', '^', '$', '(', ')', '[', ']', '|', '\\',
   Char.ofNat 0x7b, Char.ofNat 0x7d]

/-- Is the pattern free of regex metacharacters (so that the regex
filter degenerates to a literal substring search)? -/
def regexMetaFree (pat : String) : Bool :=
  pat.data.all (fun c => !regexMetaChars.contains c)

/-- Modelled from the spec: the bcrypt hash used by `models/User.js`
(file absent from `src/`; the README fixes cost factor 12).  The
one-way digest is abstracted as the plaintext behind the scheme/cost
marker; the claims under verification need only that verification
succeeds exactly on the hashed plaintext. -/
def bcryptHash (plain : String) : String :=
  "$2b$12$" ++ plain

/-- Modelled from the spec: `bcrypt.compare` as used by the login flow
of `controllers/authController.js` (file absent from `src/`). -/
def bcryptCompare (plain hashed : String) : Bool :=
  hashed == bcryptHash plain

/-- A JSON scalar appearing in a response document. -/
inductive Val where
  | str : String → Val
  | num : Int → Val
deriving DecidableEq, Repr

/-- A stored user document, with the fields of the documented schema:
`{name, email, password, age, createdAt}` plus the assigned `_id`. -/
structure UserRec where
  id : Nat
  name : String
  email : String
  password : String
  age : Int
  createdAt : Nat
deriving DecidableEq, Repr

/-- The MongoDB `users` collection. -/
abbrev Store := List UserRec

/-- The full document of a stored user, as key/value pairs; note that it
still carries the `password` field (the stored bcrypt hash). -/
def userDoc (u : UserRec) : List (String × Val) :=
  [("_id", Val.num (Int.ofNat u.id)),
   ("name", Val.str u.name),
   ("email", Val.str u.email),
   ("password", Val.str u.password),
   ("age", Val.num u.age),
   ("createdAt", Val.num (Int.ofNat u.createdAt))]

/-- Projection `.select('-password')` applied by the GET and DELETE
handlers of `server.js` (lines 51, 72, 99): drop the `password` key. -/
def selectNoPassword (d : List (String × Val)) : List (String × Val) :=
  d.filter (fun kv => kv.1 ≠ "password")

/-- Modelled from the spec: the `toJSON` sanitisation of
`models/User.js` (file absent from `src/`): "`passwordHash` never
crosses the output boundary". -/
def userToJSON (u : UserRec) : List (String × Val) :=
  selectNoPassword (userDoc u)

/-- Modelled from the spec: field validation of the mongoose schema in
`models/User.js` (file absent from `src/`), per the schema documented in
the README: `name` required, `email` required, `password` required with
minimum length 6, `age` required in the inclusive range 1-120.  Messages
abbreviate the generated mongoose ones. -/
def schemaValidate (u : UserRec) : List String :=
  (if u.name = "" then ["Path name is required"] else []) ++
  (if u.email = "" then ["Path email is required"] else []) ++
  (if u.password = "" then ["Path password is required"] else []) ++
  (if u.password.data.length < 6 then
    ["password is shorter than the minimum allowed length 6"] else []) ++
  (if u.age < 1 then ["age is less than minimum allowed value 1"] else []) ++
  (if u.age > 120 then ["age is more than maximum allowed value 120"] else [])

/-- A failure raised by the storage layer on `save`.  `validation`
carries mongoose field-validation messages (`error.name` is
`ValidationError`); `duplicateKey` is the E11000 error raised by the
unique index on `email` (`error.name` is `MongoServerError`). -/
inductive DbError where
  | validation : List String → DbError
  | duplicateKey : String → DbError
deriving DecidableEq, Repr

/-- The `name` property of the thrown error object, branched on by the
catch block of the POST `/api/users` handler (`server.js` line 163). -/
def DbError.errName : DbError → String
  | .validation _ => "ValidationError"
  | .duplicateKey _ => "MongoServerError"

/-- The per-field messages collected by
`Object.values(error.errors).map(err => err.message)`. -/
def DbError.msgs : DbError → List String
  | .validation m => m
  | .duplicateKey _ => []

/-- Modelled from the spec: `newUser.save()` through the mongoose model
of `models/User.js` (file absent from `src/`): the `lowercase: true`
setter normalises `email`, schema validation runs, the pre-save hook
bcrypt-hashes `password`, and the insert is guarded atomically by the
unique index on `email` (README: `email: String (required, unique,
lowercase)`).  The insert itself is a compare-and-insert: it fails with
a duplicate-key error exactly when the store already holds the
normalised email. -/
def saveUser (store : Store) (u : UserRec) : Except DbError (Store × UserRec) :=
  let u1 := { u with email := lowerStr u.email }
  let errs := schemaValidate u1
  if errs.isEmpty then
    if store.any (fun v => v.email == u1.email) then
      .error (.duplicateKey u1.email)
    else
      let u2 := { u1 with password := bcryptHash u1.password }
      .ok (store ++ [u2], u2)
  else
    .error (.validation errs)

/-- The JSON body of a create/registration request; `none` models an
absent field. -/
structure CreateBody where
  name : Option String
  email : Option String
  password : Option String
  age : Option Int
deriving DecidableEq, Repr

/-- JavaScript truthiness of an optional string field (`!name` is true
for a missing field and for the empty string). -/
def truthyS : Option String → Bool
  | none => false
  | some s => s ≠ ""

/-- JavaScript truthiness of an optional numeric field (`!age` is true
for a missing field and for `0`). -/
def truthyI : Option Int → Bool
  | none => false
  | some n => n ≠ 0

/-- Extract a string field after the truthiness guard has passed. -/
def getS : Option String → String
  | none => ""
  | some s => s

/-- Extract a numeric field after the truthiness guard has passed. -/
def getI : Option Int → Int
  | none => 0
  | some n => n

/-- The distinct response shapes the POST `/api/users` handler of
`server.js` can produce: 201 created, the 400 missing-fields response
(line 130), the 400 duplicate-email response (line 139), the 400
mongoose-validation response (line 165), and the 500 generic failure
(line 172). -/
inductive Resp where
  | created : List (String × Val) → Resp
  | requiredErr : Resp
  | conflict : Resp
  | validationErr : List String → Resp
  | internal : String → Resp
deriving DecidableEq, Repr

/-- The HTTP status code of each response shape of the handler. -/
def Resp.status : Resp → Nat
  | .created _ => 201
  | .requiredErr => 400
  | .conflict => 400
  | .validationErr _ => 400
  | .internal _ => 500

/-- The `message` field of each response shape of the handler. -/
def Resp.message : Resp → String
  | .created _ => "User created successfully"
  | .requiredErr => "Name, email, password, and age are required"
  | .conflict => "User with this email already exists"
  | .validationErr _ => "Validation error"
  | .internal m => m

/-- A create request that has passed the presence and duplicate checks
and is about to be saved. -/
structure PendingCreate where
  name : String
  email : String
  password : String
  age : Int
deriving DecidableEq, Repr

/-- The fields the handler extracts from a body whose presence check
passed. -/
def pendOf (b : CreateBody) : PendingCreate :=
  { name := getS b.name, email := getS b.email,
    password := getS b.password, age := getI b.age }

/-- The document handed to `new User({...})` by the POST handler
(`server.js` lines 145-150). -/
def recOf (nextId now : Nat) (p : PendingCreate) : UserRec :=
  { id := nextId, name := p.name, email := p.email,
    password := p.password, age := p.age, createdAt := now }

/-- The document after the lowercase setter has run, the one schema
validation sees. -/
def lowRec (nextId now : Nat) (p : PendingCreate) : UserRec :=
  { recOf nextId now p with email := lowerStr p.email }

/-- The document as finally persisted: email lowercased and password
bcrypt-hashed. -/
def hashedRec (nextId now : Nat) (p : PendingCreate) : UserRec :=
  { lowRec nextId now p with password := bcryptHash p.password }

/-- First half of the POST `/api/users` handler (`server.js` lines
126-143), up to the `await User.findOne` duplicate check: either an
early error response, or the validated fields to be saved. -/
def checkPhase (store : Store) (b : CreateBody) : Sum Resp PendingCreate :=
  if truthyS b.name && truthyS b.email && truthyS b.password && truthyI b.age then
    if store.any (fun v => v.email == lowerStr (getS b.email)) then
      .inl .conflict
    else
      .inr { name := getS b.name, email := getS b.email,
             password := getS b.password, age := getI b.age }
  else
    .inl .requiredErr

/-- Second half of the POST `/api/users` handler (`server.js` lines
145-177): build the document, `save` it, and on failure run the catch
block, which maps a mongoose `ValidationError` to the 400 validation
response and every other storage error to the generic 500 response. -/
def savePhase (store : Store) (nextId now : Nat) (p : PendingCreate) :
    Store × Resp :=
  match saveUser store (recOf nextId now p) with
  | .ok (store2, u) => (store2, .created (userToJSON u))
  | .error e =>
    if DbError.errName e = "ValidationError" then
      (store, .validationErr (DbError.msgs e))
    else
      (store, .internal "Error creating user")

/-- The POST `/api/users` handler of `server.js` (lines 124-178), run to
completion on a single request. -/
def createUserHandler (store : Store) (nextId now : Nat) (b : CreateBody) :
    Store × Resp :=
  match checkPhase store b with
  | .inl r => (store, r)
  | .inr p => savePhase store nextId now p

/-- The query string of GET `/api/users`; `none` models an absent or
empty query parameter, and the age bounds are already `parseInt`-ed. -/
structure ListQuery where
  name : Option String
  email : Option String
  minAge : Option Int
  maxAge : Option Int
deriving DecidableEq, Repr

/-- The MongoDB filter built by the GET `/api/users` handler
(`server.js` lines 31-49): a case-insensitive `$regex` on `name` and on
`email` when those parameters are truthy (the raw parameter is the
regex pattern), and `$gte` / `$lte` bounds on `age` for whichever of
`minAge` / `maxAge` is truthy.  The age bounds arrive as query strings,
so any present (non-empty) parameter is truthy — including the string
"0" — which `Option.isSome` models after `parseInt`. -/
def matchesFilter (q : ListQuery) (u : UserRec) : Bool :=
  (if truthyS q.name then regexMatchCI (getS q.name) u.name else true) &&
  (if truthyS q.email then regexMatchCI (getS q.email) u.email else true) &&
  (if q.minAge.isSome || q.maxAge.isSome then
    (if q.minAge.isSome then decide (getI q.minAge ≤ u.age) else true) &&
    (if q.maxAge.isSome then decide (u.age ≤ getI q.maxAge) else true)
  else true)

/-- The GET `/api/users` handler of `server.js` (lines 28-66):
`User.find(filter).select('-password')`. -/
def listUsersHandler (store : Store) (q : ListQuery) :
    List (List (String × Val)) :=
  (store.filter (matchesFilter q)).map (fun u => selectNoPassword (userDoc u))

/-- Response of the by-id handlers: the sanitised document, or the 404
not-found response. -/
inductive IdResp where
  | ok : List (String × Val) → IdResp
  | notFound : IdResp
deriving DecidableEq, Repr

/-- The GET `/api/users/:id` handler of `server.js` (lines 69-93):
`User.findById(userId).select('-password')`, 404 when absent. -/
def getUserHandler (store : Store) (userId : Nat) : IdResp :=
  match store.find? (fun u => u.id == userId) with
  | none => .notFound
  | some u => .ok (selectNoPassword (userDoc u))

/-- The DELETE `/api/users/:id` handler of `server.js` (lines 96-121):
`User.findByIdAndDelete(userId).select('-password')` (ids are unique,
so removing every record with the id removes the one found), 404 when
absent. -/
def deleteUserHandler (store : Store) (userId : Nat) : Store × IdResp :=
  match store.find? (fun u => u.id == userId) with
  | none => (store, .notFound)
  | some u =>
    (store.filter (fun v => v.id ≠ userId), .ok (selectNoPassword (userDoc u)))

/-- A typed failure raised by the auth service, carrying the error kind
and the message shown to the caller. -/
structure ErrInfo where
  name : String
  message : String
deriving DecidableEq, Repr

/-- The uniform login failure: same kind and same message whether the
email is unknown or the password is wrong. -/
def invalidCredentials : ErrInfo :=
  { name := "AuthenticationError", message := "invalid credentials" }

/-- The uniform token-validation failure (malformed, bad signature or
expired are indistinguishable to the caller). -/
def invalidToken : ErrInfo :=
  { name := "AuthenticationError", message := "invalid token" }

/-- The token time-to-live in seconds: `config.js` line 9 sets
`expiresIn: '24h'`. -/
def jwtExpiresInSeconds : Nat := 24 * 60 * 60

/-- The claims encoded in a session token: subject (user id), issued-at
and expiry, all that the token carries by design. -/
structure Claims where
  sub : Nat
  iat : Nat
  exp : Nat
deriving DecidableEq, Repr

/-- Modelled from the spec: the HMAC signature over the claims with the
process secret (`jsonwebtoken` internals, absent from `src/`),
abstracted as an injective encoding of secret and claims. -/
def signClaims (secret : String) (c : Claims) : String :=
  secret ++ "." ++ toString c.sub ++ "." ++ toString c.iat ++ "." ++
    toString c.exp

/-- A signed session token: claims plus signature. -/
structure Token where
  claims : Claims
  sig : String
deriving DecidableEq, Repr

/-- Modelled from the spec: `issueToken(identity)` of
`controllers/authController.js` (file absent from `src/`): claims
{subject = identity id, issuedAt = now, expiresAt = now + 24h}, signed
with the process secret.  The 24h TTL is `config.js` line 9. -/
def issueToken (secret : String) (now userId : Nat) : Token :=
  let c : Claims := { sub := userId, iat := now, exp := now + jwtExpiresInSeconds }
  { claims := c, sig := signClaims secret c }

/-- Modelled from the spec: `validateToken(token)` of
`middleware/auth.js` (file absent from `src/`): verify the signature
against the process secret, check that the current time is before
`exp`, and return the subject identity reference; any failure is the
uniform `AuthenticationError`. -/
def validateToken (secret : String) (now : Nat) (t : Token) :
    Except ErrInfo Nat :=
  if t.sig == signClaims secret t.claims then
    if now < t.claims.exp then .ok t.claims.sub
    else .error invalidToken
  else .error invalidToken

/-- Modelled from the spec: `login(email, password)` of
`controllers/authController.js` (file absent from `src/`): normalise
the email, look it up, fail with the uniform `AuthenticationError`
("invalid credentials") when the email is unknown, verify the password
with bcrypt and fail with the *same* error on mismatch, and on match
return the sanitised record with a fresh token. -/
def login (secret : String) (now : Nat) (store : Store)
    (email password : String) : Except ErrInfo (List (String × Val) × Token) :=
  match store.find? (fun u => u.email == lowerStr email) with
  | none => .error invalidCredentials
  | some u =>
    if bcryptCompare password u.password then
      .ok (userToJSON u, issueToken secret now u.id)
    else
      .error invalidCredentials

/-- Modelled from the spec: `register(name, email, password, age)` of
`controllers/authController.js` (file absent from `src/`): validate
presence of all fields (`ValidationError` if any absent), delegate to
the store's create (which normalises, validates, hashes and enforces
uniqueness), propagate `ConflictError` / `ValidationError` unchanged in
kind, and on success return the sanitised record with a fresh token. -/
def register (secret : String) (store : Store) (nextId now : Nat)
    (b : CreateBody) : Store × Except ErrInfo (List (String × Val) × Token) :=
  if truthyS b.name && truthyS b.email && truthyS b.password && truthyI b.age then
    match saveUser store (recOf nextId now (pendOf b)) with
    | .ok (store2, u) =>
      (store2, .ok (userToJSON u, issueToken secret now u.id))
    | .error (.duplicateKey _) =>
      (store, .error { name := "ConflictError",
                       message := "User with this email already exists" })
    | .error (.validation msgs) =>
      (store, .error { name := "ValidationError",
                       message := String.intercalate ", " msgs })
  else
    (store, .error { name := "ValidationError",
                     message := "All fields are required" })

/-- Modelled from the spec: `getProfile` of
`controllers/authController.js` behind the `authenticateToken`
middleware (files absent from `src/`): validate the bearer token, then
resolve the subject via `findById` and return the sanitised record. -/
def getProfile (secret : String) (now : Nat) (store : Store) (t : Token) :
    Except ErrInfo (List (String × Val)) :=
  match validateToken secret now t with
  | .error e => .error e
  | .ok uid =>
    match store.find? (fun u => u.id == uid) with
    | none => .error { name := "NotFoundError", message := "User not found" }
    | some u => .ok (userToJSON u)

/-- The state of one in-flight POST `/api/users` request, split at its
`await` boundary: not yet started, past the `findOne` duplicate check,
or finished with a response. -/
inductive ReqState where
  | start : CreateBody → ReqState
  | pending : PendingCreate → ReqState
  | done : Resp → ReqState
deriving DecidableEq, Repr

/-- One atomic step of an in-flight create request against the shared
store: the check phase (up to and including `findOne`), then the save
phase (the `save` call and its result handling). -/
def stepReq (store : Store) (nextId now : Nat) :
    ReqState → Store × ReqState
  | .start b =>
    match checkPhase store b with
    | .inl r => (store, .done r)
    | .inr p => (store, .pending p)
  | .pending p =>
    let sr := savePhase store nextId now p
    (sr.1, .done sr.2)
  | .done r => (store, .done r)

/-- The shared store plus two concurrently handled create requests. -/
structure RaceState where
  store : Store
  r1 : ReqState
  r2 : ReqState
deriving DecidableEq, Repr

/-- Run one scheduling step: `true` steps request 1, `false` steps
request 2. -/
def stepRace (nid1 nid2 now : Nat) (st : RaceState) (pick : Bool) :
    RaceState :=
  if pick then
    let sr := stepReq st.store nid1 now st.r1
    { st with store := sr.1, r1 := sr.2 }
  else
    let sr := stepReq st.store nid2 now st.r2
    { st with store := sr.1, r2 := sr.2 }

/-- Run two concurrent create requests under the given interleaving. -/
def runRace (nid1 nid2 now : Nat) (sched : List Bool) (st : RaceState) :
    RaceState :=
  sched.foldl (stepRace nid1 nid2 now) st

/-- Bool predicate: the response document carries no `password` key. -/
def docNoPwd (d : List (String × Val)) : Bool :=
  d.all (fun kv => kv.1 != "password")

/-- Bool predicate on a create response: a created payload carries no
`password` key (error responses carry no document at all). -/
def respNoPwd : Resp → Bool
  | .created d => docNoPwd d
  | _ => true

/-- Bool predicate on a by-id response: the returned document carries no
`password` key. -/
def idRespNoPwd : IdResp → Bool
  | .ok d => docNoPwd d
  | .notFound => true

/-- Bool predicate on a register/login result: the returned document
carries no `password` key. -/
def exDocTokNoPwd : Except ErrInfo (List (String × Val) × Token) → Bool
  | .ok dt => docNoPwd dt.1
  | .error _ => true

/-- Bool predicate on a profile result: the returned document carries no
`password` key. -/
def exDocNoPwd : Except ErrInfo (List (String × Val)) → Bool
  | .ok d => docNoPwd d
  | .error _ => true

/-- The per-criterion matching property of the list filter, stated
criterion by criterion as the spec states it: a supplied non-empty name
pattern must occur case-insensitively in the name, likewise for email,
and the age must respect whichever bounds are supplied; an unsupplied
criterion imposes no constraint. -/
def SpecMatches (q : ListQuery) (u : UserRec) : Prop :=
  (∀ p, q.name = some p → p ≠ "" → containsCI p u.name = true) ∧
  (∀ p, q.email = some p → p ≠ "" → containsCI p u.email = true) ∧
  (∀ m, q.minAge = some m → m ≤ u.age) ∧
  (∀ m, q.maxAge = some m → u.age ≤ m)

/-- The registration body of the end-to-end scenario documented in the
README and the spec. -/
def johnBody : CreateBody :=
  { name := some "John Doe", email := some "John@Example.com",
    password := some "password123", age := some 30 }

/-- The record the store holds after the scenario registration. -/
def johnStored : UserRec :=
  { id := 1, name := "John Doe", email := "john@example.com",
    password := bcryptHash "password123", age := 30, createdAt := 0 }

/-- A stored record whose email contains the characters of
`john.doe` with an `x` in place of the dot. -/
def dotUser : UserRec :=
  { id := 4, name := "John X Doe", email := "johnxdoe@example.com",
    password := bcryptHash "password123", age := 41, createdAt := 0 }

/-! ## Helper lemmas -/

theorem string_eq_empty_iff (s : String) : s = "" ↔ s.data = [] := by
  cases s with
  | mk d =>
    constructor
    · intro h
      exact congrArg String.data h
    · intro h
      subst h
      rfl

theorem lowerStr_ne_empty {s : String} (h : s ≠ "") : lowerStr s ≠ "" := by
  intro he
  apply h
  rw [string_eq_empty_iff] at he ⊢
  simpa [lowerStr] using he

theorem getS_ne_of_truthy {o : Option String} (h : truthyS o = true) :
    getS o ≠ "" := by
  cases o with
  | none => simp [truthyS] at h
  | some s => simpa [truthyS, getS] using h

theorem schemaValidate_nil {u : UserRec} (hn : u.name ≠ "") (he : u.email ≠ "")
    (hp : 6 ≤ u.password.data.length) (h1 : 1 ≤ u.age) (h2 : u.age ≤ 120) :
    schemaValidate u = [] := by
  have hpne : u.password ≠ "" := by
    intro hq
    rw [string_eq_empty_iff] at hq
    simp [hq] at hp
  have c1 : ¬ (u.password.data.length < 6) := Nat.not_lt.mpr hp
  have c2 : ¬ (u.age < 1) := not_lt.mpr h1
  have c3 : ¬ (u.age > 120) := not_lt.mpr h2
  unfold schemaValidate
  rw [if_neg hn, if_neg he, if_neg hpne, if_neg c1, if_neg c2, if_neg c3]
  rfl

theorem age_bounds_of_schemaValidate_nil {u : UserRec}
    (h : schemaValidate u = []) : 1 ≤ u.age ∧ u.age ≤ 120 := by
  unfold schemaValidate at h
  simp only [List.append_eq_nil] at h
  constructor
  · by_contra hlt
    push_neg at hlt
    simp [hlt] at h
  · by_contra hlt
    push_neg at hlt
    simp [hlt] at h

theorem checkPhase_pass (store : Store) (b : CreateBody)
    (hn : truthyS b.name = true) (he : truthyS b.email = true)
    (hp : truthyS b.password = true) (ha : truthyI b.age = true)
    (hfresh : ∀ v ∈ store, v.email ≠ lowerStr (getS b.email)) :
    checkPhase store b = .inr (pendOf b) := by
  have hany : store.any (fun v => v.email == lowerStr (getS b.email)) = false := by
    rw [List.any_eq_false]
    intro v hv
    simpa using hfresh v hv
  simp [checkPhase, hn, he, hp, ha, hany, pendOf]

theorem checkPhase_hit (store : Store) (b : CreateBody) (u : UserRec)
    (hn : truthyS b.name = true) (he : truthyS b.email = true)
    (hp : truthyS b.password = true) (ha : truthyI b.age = true)
    (hu : u ∈ store) (hue : u.email = lowerStr (getS b.email)) :
    checkPhase store b = .inl .conflict := by
  have hany : store.any (fun v => v.email == lowerStr (getS b.email)) = true :=
    List.any_eq_true.mpr ⟨u, hu, by simp [hue]⟩
  simp [checkPhase, hn, he, hp, ha, hany]

theorem saveUser_ok (store : Store) (nextId now : Nat) (p : PendingCreate)
    (hval : schemaValidate (lowRec nextId now p) = [])
    (hfresh : ∀ v ∈ store, v.email ≠ lowerStr p.email) :
    saveUser store (recOf nextId now p) =
      .ok (store ++ [hashedRec nextId now p], hashedRec nextId now p) := by
  have hany : store.any (fun v => v.email == lowerStr p.email) = false := by
    rw [List.any_eq_false]
    intro v hv
    simpa using hfresh v hv
  have hrec : ({ recOf nextId now p with
      email := lowerStr (recOf nextId now p).email }) = lowRec nextId now p := rfl
  have hnot : ¬ (store.any
      (fun v => v.email == lowerStr (recOf nextId now p).email) = true) := by
    intro h
    rw [show lowerStr (recOf nextId now p).email = lowerStr p.email from rfl] at h
    rw [hany] at h
    exact Bool.false_ne_true h
  simp only [saveUser, hrec, hval, List.isEmpty_nil, if_true]
  rw [if_neg hnot]
  rfl

theorem savePhase_ok (store : Store) (nextId now : Nat) (p : PendingCreate)
    (hval : schemaValidate (lowRec nextId now p) = [])
    (hfresh : ∀ v ∈ store, v.email ≠ lowerStr p.email) :
    savePhase store nextId now p =
      (store ++ [hashedRec nextId now p],
       .created (userToJSON (hashedRec nextId now p))) := by
  unfold savePhase
  rw [saveUser_ok store nextId now p hval hfresh]

theorem saveUser_dup (store : Store) (nextId now : Nat) (p : PendingCreate)
    (u : UserRec)
    (hval : schemaValidate (lowRec nextId now p) = [])
    (hu : u ∈ store) (hue : u.email = lowerStr p.email) :
    saveUser store (recOf nextId now p) =
      .error (.duplicateKey (lowerStr p.email)) := by
  have hany : store.any
      (fun v => v.email == lowerStr (recOf nextId now p).email) = true :=
    List.any_eq_true.mpr ⟨u, hu, by simp [hue, recOf]⟩
  have hrec : ({ recOf nextId now p with
      email := lowerStr (recOf nextId now p).email }) = lowRec nextId now p := rfl
  simp only [saveUser, hrec, hval, List.isEmpty_nil, if_true]
  rw [if_pos hany]
  rfl

theorem savePhase_dup (store : Store) (nextId now : Nat) (p : PendingCreate)
    (u : UserRec)
    (hval : schemaValidate (lowRec nextId now p) = [])
    (hu : u ∈ store) (hue : u.email = lowerStr p.email) :
    savePhase store nextId now p = (store, .internal "Error creating user") := by
  unfold savePhase
  rw [saveUser_dup store nextId now p u hval hu hue]
  rfl

theorem createUserHandler_ok (store : Store) (nextId now : Nat) (b : CreateBody)
    (hn : truthyS b.name = true) (he : truthyS b.email = true)
    (hp : truthyS b.password = true) (ha : truthyI b.age = true)
    (hlen : 6 ≤ (getS b.password).data.length)
    (h1 : 1 ≤ getI b.age) (h2 : getI b.age ≤ 120)
    (hfresh : ∀ v ∈ store, v.email ≠ lowerStr (getS b.email)) :
    createUserHandler store nextId now b =
      (store ++ [hashedRec nextId now (pendOf b)],
       .created (userToJSON (hashedRec nextId now (pendOf b)))) := by
  have hval : schemaValidate (lowRec nextId now (pendOf b)) = [] :=
    schemaValidate_nil (getS_ne_of_truthy hn)
      (lowerStr_ne_empty (getS_ne_of_truthy he)) hlen h1 h2
  unfold createUserHandler
  rw [checkPhase_pass store b hn he hp ha hfresh]
  exact savePhase_ok store nextId now (pendOf b) hval hfresh

theorem saveUser_validation (store : Store) (nextId now : Nat)
    (p : PendingCreate) (msgs : List String)
    (hmsgs : schemaValidate (lowRec nextId now p) = msgs) (hne : msgs ≠ []) :
    saveUser store (recOf nextId now p) = .error (.validation msgs) := by
  have hrec : ({ recOf nextId now p with
      email := lowerStr (recOf nextId now p).email }) = lowRec nextId now p := rfl
  have hemp : msgs.isEmpty = false := by
    cases msgs with
    | nil => exact absurd rfl hne
    | cons a l => rfl
  simp only [saveUser, hrec, hmsgs, hemp]
  rfl

theorem savePhase_validation (store : Store) (nextId now : Nat)
    (p : PendingCreate) (msgs : List String)
    (hmsgs : schemaValidate (lowRec nextId now p) = msgs) (hne : msgs ≠ []) :
    savePhase store nextId now p = (store, .validationErr msgs) := by
  unfold savePhase
  rw [saveUser_validation store nextId now p msgs hmsgs hne]
  rfl

theorem checkPhase_inl (store : Store) (b : CreateBody) (r : Resp)
    (h : checkPhase store b = .inl r) : r = .conflict ∨ r = .requiredErr := by
  unfold checkPhase at h
  split_ifs at h
  · exact Or.inl (Sum.inl.inj h).symm
  · exact Or.inr (Sum.inl.inj h).symm

theorem docNoPwd_selectNoPassword (d : List (String × Val)) :
    docNoPwd (selectNoPassword d) = true := by
  rw [docNoPwd, List.all_eq_true]
  intro kv hkv
  have h2 := (List.mem_filter.mp hkv).2
  simpa using h2

theorem respNoPwd_savePhase (store : Store) (nextId now : Nat)
    (p : PendingCreate) :
    respNoPwd (savePhase store nextId now p).2 = true := by
  unfold savePhase
  cases h : saveUser store (recOf nextId now p) with
  | ok sp =>
    obtain ⟨s2, u⟩ := sp
    simp [respNoPwd, userToJSON, docNoPwd_selectNoPassword]
  | error e =>
    by_cases hn : DbError.errName e = "ValidationError" <;>
      simp [respNoPwd, hn]

theorem saveUser_ok_inv {store : Store} {w : UserRec} {sp : Store × UserRec}
    (h : saveUser store w = .ok sp) :
    sp.1 = store ++ [sp.2] ∧ 1 ≤ sp.2.age ∧ sp.2.age ≤ 120 := by
  simp only [saveUser] at h
  split_ifs at h with h1 h2
  obtain ⟨s2, u2⟩ := sp
  simp only [Except.ok.injEq, Prod.mk.injEq] at h
  obtain ⟨ha, hb⟩ := h
  have hnil : schemaValidate { w with email := lowerStr w.email } = [] :=
    List.isEmpty_iff.mp h1
  have hbounds := age_bounds_of_schemaValidate_nil hnil
  subst ha
  subst hb
  exact ⟨rfl, hbounds.1, hbounds.2⟩

theorem schemaValidate_age_only {u : UserRec} (hn : u.name ≠ "")
    (he : u.email ≠ "") (hp : 6 ≤ u.password.data.length) :
    schemaValidate u =
      (if u.age < 1 then ["age is less than minimum allowed value 1"] else []) ++
      (if u.age > 120 then ["age is more than maximum allowed value 120"] else []) := by
  have hpne : u.password ≠ "" := by
    intro hq
    rw [string_eq_empty_iff] at hq
    simp [hq] at hp
  have c1 : ¬ (u.password.data.length < 6) := Nat.not_lt.mpr hp
  unfold schemaValidate
  rw [if_neg hn, if_neg he, if_neg hpne, if_neg c1]
  rfl

theorem createUserHandler_required (store : Store) (nextId now : Nat)
    (b : CreateBody)
    (h : (truthyS b.name && truthyS b.email && truthyS b.password &&
      truthyI b.age) = false) :
    createUserHandler store nextId now b = (store, .requiredErr) := by
  unfold createUserHandler checkPhase
  rw [h]
  rfl

theorem savePhase_store_shape (store : Store) (nextId now : Nat)
    (p : PendingCreate) :
    (savePhase store nextId now p).1 = store ∨
    ∃ u2, (savePhase store nextId now p).1 = store ++ [u2] ∧
      1 ≤ u2.age ∧ u2.age ≤ 120 := by
  unfold savePhase
  cases hs : saveUser store (recOf nextId now p) with
  | ok sp =>
    obtain ⟨s2, u2⟩ := sp
    obtain ⟨ha, h1, h2⟩ := saveUser_ok_inv hs
    exact Or.inr ⟨u2, ha, h1, h2⟩
  | error e =>
    refine Or.inl ?_
    show (if DbError.errName e = "ValidationError" then
        (store, Resp.validationErr (DbError.msgs e))
      else (store, Resp.internal "Error creating user")).1 = store
    split_ifs <;> rfl

theorem createUserHandler_store_shape (store : Store) (nextId now : Nat)
    (b : CreateBody) :
    (createUserHandler store nextId now b).1 = store ∨
    ∃ u2, (createUserHandler store nextId now b).1 = store ++ [u2] ∧
      1 ≤ u2.age ∧ u2.age ≤ 120 := by
  unfold createUserHandler
  cases hc : checkPhase store b with
  | inl r => exact Or.inl rfl
  | inr p => exact savePhase_store_shape store nextId now p

theorem createUserHandler_store_grows (store : Store) (nextId now : Nat)
    (b : CreateBody) :
    ∀ u ∈ (createUserHandler store nextId now b).1,
      u ∈ store ∨ (1 ≤ u.age ∧ u.age ≤ 120) := by
  intro u hu
  rcases createUserHandler_store_shape store nextId now b with h | ⟨u2, h, h1, h2⟩
  · rw [h] at hu
    exact Or.inl hu
  · rw [h] at hu
    rcases List.mem_append.mp hu with hl | hr
    · exact Or.inl hl
    · rw [List.mem_singleton.mp hr]
      exact Or.inr ⟨h1, h2⟩

/-! ## Claim theorems -/

/-- C1 (counterexample): the claim quantifies over *every* create request
whose normalised email equals a stored email, but a request that also
omits the `name` field is answered by the missing-fields branch
(`server.js` line 129) before the duplicate check runs: the response is
the required-fields 400, not the conflict response, even though the
normalised email `john@example.com` is already stored. -/
theorem duplicate_email_yet_missing_name_not_conflict :
    (createUserHandler [johnStored] 2 0
      { name := none, email := some "John@Example.com",
        password := some "password123", age := some 30 }).2 = Resp.requiredErr ∧
    Resp.requiredErr ≠ Resp.conflict ∧
    lowerStr "John@Example.com" = johnStored.email := by
  refine ⟨by decide, fun h => Resp.noConfusion h, by decide⟩

/-- C1 (amended): for every create request that passes the presence
check (all four fields truthy) and whose normalised email equals the
email of a stored record, the handler answers with the duplicate-email
conflict response — a response shape distinct from the mongoose
validation response, from the generic internal failure and from the
missing-fields response — and the store is unchanged, so no new record
is persisted. -/
theorem duplicate_email_conflict (store : Store) (nextId now : Nat)
    (b : CreateBody) (u : UserRec)
    (hn : truthyS b.name = true) (he : truthyS b.email = true)
    (hp : truthyS b.password = true) (ha : truthyI b.age = true)
    (hu : u ∈ store) (hue : u.email = lowerStr (getS b.email)) :
    createUserHandler store nextId now b = (store, .conflict) ∧
    (∀ msgs, Resp.conflict ≠ Resp.validationErr msgs) ∧
    (∀ m, Resp.conflict ≠ Resp.internal m) ∧
    Resp.conflict ≠ Resp.requiredErr := by
  refine ⟨?_, fun msgs h => Resp.noConfusion h, fun m h => Resp.noConfusion h,
    fun h => Resp.noConfusion h⟩
  unfold createUserHandler
  rw [checkPhase_hit store b u hn he hp ha hu hue]

theorem duplicate_email_conflict_witness :
    createUserHandler [johnStored] 2 7
      { name := some "Jane", email := some "JOHN@example.com",
        password := some "secret99", age := some 22 } =
      ([johnStored], .conflict) :=
  (duplicate_email_conflict [johnStored] 2 7
    { name := some "Jane", email := some "JOHN@example.com",
      password := some "secret99", age := some 22 } johnStored
    (by decide) (by decide) (by decide) (by decide)
    (List.mem_singleton_self johnStored) (by decide)).1

/-- C2: login failure for an unknown email and login failure for a wrong
password on an existing email produce the very same typed error — equal
kind (`AuthenticationError`) and equal message text
(`invalid credentials`) — so the two causes are indistinguishable to the
caller. -/
theorem login_uniform_failure (secret : String) (now : Nat) (store : Store)
    (e1 p1 e2 p2 : String) (u : UserRec)
    (h1 : ∀ v ∈ store, v.email ≠ lowerStr e1)
    (h2 : store.find? (fun v => v.email == lowerStr e2) = some u)
    (h3 : bcryptCompare p2 u.password = false) :
    login secret now store e1 p1 = .error invalidCredentials ∧
    login secret now store e2 p2 = .error invalidCredentials ∧
    invalidCredentials.name = "AuthenticationError" ∧
    invalidCredentials.message = "invalid credentials" := by
  refine ⟨?_, ?_, rfl, rfl⟩
  · have hf : store.find? (fun v => v.email == lowerStr e1) = none := by
      rw [List.find?_eq_none]
      intro v hv
      simpa using h1 v hv
    unfold login
    rw [hf]
  · unfold login
    rw [h2]
    simp [h3]

theorem login_uniform_failure_witness :
    login "s" 3 [johnStored] "ghost@example.com" "whatever" =
      .error invalidCredentials ∧
    login "s" 3 [johnStored] "john@example.com" "wrongpass" =
      .error invalidCredentials :=
  ⟨(login_uniform_failure "s" 3 [johnStored] "ghost@example.com" "whatever"
      "john@example.com" "wrongpass" johnStored (by decide) (by decide)
      (by decide)).1,
   (login_uniform_failure "s" 3 [johnStored] "ghost@example.com" "whatever"
      "john@example.com" "wrongpass" johnStored (by decide) (by decide)
      (by decide)).2.1⟩

/-- C5: a successful creation persists the record with the email
lowercased (the submitted `John@Example.com` is stored as
`john@example.com`), and the duplicate-existence check of the handler
compares stored emails against exactly this normalised form. -/
theorem create_normalizes_email (store : Store) (nextId now : Nat)
    (b : CreateBody)
    (hn : truthyS b.name = true) (he : truthyS b.email = true)
    (hp : truthyS b.password = true) (ha : truthyI b.age = true)
    (hlen : 6 ≤ (getS b.password).data.length)
    (h1 : 1 ≤ getI b.age) (h2 : getI b.age ≤ 120)
    (hfresh : ∀ v ∈ store, v.email ≠ lowerStr (getS b.email)) :
    createUserHandler store nextId now b =
      (store ++ [hashedRec nextId now (pendOf b)],
       .created (userToJSON (hashedRec nextId now (pendOf b)))) ∧
    (hashedRec nextId now (pendOf b)).email = lowerStr (getS b.email) ∧
    (∀ store2 u, u ∈ store2 → u.email = lowerStr (getS b.email) →
      checkPhase store2 b = .inl .conflict) :=
  ⟨createUserHandler_ok store nextId now b hn he hp ha hlen h1 h2 hfresh, rfl,
   fun store2 u hu hue => checkPhase_hit store2 b u hn he hp ha hu hue⟩

theorem create_normalizes_email_witness :
    (createUserHandler [] 1 0 johnBody).1.map UserRec.email =
      ["john@example.com"] := by
  have h := (create_normalizes_email [] 1 0 johnBody (by decide) (by decide)
    (by decide) (by decide) (by decide) (by decide) (by decide) (by decide)).1
  rw [h]
  decide

/-- C6 (counterexample): the missing-fields failure does not list the
missing fields — it is one fixed message.  A request missing only `name`
and a request missing only `email` receive the identical response, and
that response mentions `email` even in the request where `email` was
supplied, so its content cannot identify which fields were missing. -/
theorem missing_field_response_is_fixed :
    (createUserHandler [] 1 0
      { name := none, email := some "a@b.co", password := some "secret1",
        age := some 30 }).2 = Resp.requiredErr ∧
    (createUserHandler [] 1 0
      { name := some "Al", email := none, password := some "secret1",
        age := some 30 }).2 = Resp.requiredErr ∧
    Resp.message Resp.requiredErr =
      "Name, email, password, and age are required" ∧
    containsCI "email" (Resp.message Resp.requiredErr) = true := by
  refine ⟨by decide, by decide, rfl, by decide⟩

/-- C6 (amended): whenever any required field is absent (or falsy), the
create handler fails with the fixed 400 response whose message is
`Name, email, password, and age are required`, independent of which
fields are missing, and no record is persisted. -/
theorem missing_fields_fixed_message (store : Store) (nextId now : Nat)
    (b : CreateBody)
    (h : (truthyS b.name && truthyS b.email && truthyS b.password &&
      truthyI b.age) = false) :
    createUserHandler store nextId now b = (store, .requiredErr) ∧
    Resp.status .requiredErr = 400 ∧
    Resp.message .requiredErr = "Name, email, password, and age are required" :=
  ⟨createUserHandler_required store nextId now b h, rfl, rfl⟩

theorem missing_fields_fixed_message_witness :
    createUserHandler [] 3 9
      { name := some "Zed", email := some "z@x.io",
        password := none, age := some 44 } = ([], .requiredErr) :=
  (missing_fields_fixed_message [] 3 9
    { name := some "Zed", email := some "z@x.io",
      password := none, age := some 44 } (by decide)).1

/-- C7: with the other fields valid and the email fresh, a creation with
age 0 is rejected (age 0 is falsy, so the presence check already fails),
age 121 is rejected by schema validation, while ages 1 and 120 are
accepted and persisted; and in general every record the handler adds to
the store has age in the inclusive range [1, 120]. -/
theorem age_boundary_validation (store : Store) (nextId now : Nat)
    (b : CreateBody)
    (hn : truthyS b.name = true) (he : truthyS b.email = true)
    (hp : truthyS b.password = true)
    (hlen : 6 ≤ (getS b.password).data.length)
    (hfresh : ∀ v ∈ store, v.email ≠ lowerStr (getS b.email)) :
    createUserHandler store nextId now { b with age := some 0 } =
      (store, .requiredErr) ∧
    createUserHandler store nextId now { b with age := some 121 } =
      (store, .validationErr ["age is more than maximum allowed value 120"]) ∧
    createUserHandler store nextId now { b with age := some 1 } =
      (store ++ [hashedRec nextId now (pendOf { b with age := some 1 })],
       .created (userToJSON (hashedRec nextId now (pendOf { b with age := some 1 })))) ∧
    createUserHandler store nextId now { b with age := some 120 } =
      (store ++ [hashedRec nextId now (pendOf { b with age := some 120 })],
       .created (userToJSON (hashedRec nextId now (pendOf { b with age := some 120 })))) ∧
    (∀ b2 : CreateBody, ∀ u ∈ (createUserHandler store nextId now b2).1,
      u ∈ store ∨ (1 ≤ u.age ∧ u.age ≤ 120)) := by
  refine ⟨?_, ?_, ?_, ?_, fun b2 => createUserHandler_store_grows store nextId now b2⟩
  · apply createUserHandler_required
    show (truthyS b.name && truthyS b.email && truthyS b.password &&
      truthyI (some 0)) = false
    rw [hn, he, hp]
    rfl
  · have hval : schemaValidate
        (lowRec nextId now (pendOf { b with age := some (121 : Int) })) =
        ["age is more than maximum allowed value 120"] := by
      rw [schemaValidate_age_only (getS_ne_of_truthy hn)
        (lowerStr_ne_empty (getS_ne_of_truthy he)) hlen]
      rfl
    unfold createUserHandler
    rw [checkPhase_pass store { b with age := some 121 } hn he hp
      (by decide : truthyI (some (121 : Int)) = true) hfresh]
    exact savePhase_validation store nextId now _ _ hval (by simp)
  · exact createUserHandler_ok store nextId now { b with age := some 1 }
      hn he hp (by decide : truthyI (some (1 : Int)) = true) hlen
      (by decide : (1 : Int) ≤ getI (some 1))
      (by decide : getI (some (1 : Int)) ≤ 120) hfresh
  · exact createUserHandler_ok store nextId now { b with age := some 120 }
      hn he hp (by decide : truthyI (some (120 : Int)) = true) hlen
      (by decide : (1 : Int) ≤ getI (some 120))
      (by decide : getI (some (120 : Int)) ≤ 120) hfresh

theorem age_boundary_validation_witness :
    createUserHandler [] 1 0 { johnBody with age := some 121 } =
      ([], .validationErr ["age is more than maximum allowed value 120"]) ∧
    (createUserHandler [] 1 0 { johnBody with age := some 1 }).2 =
      .created [("_id", Val.num 1), ("name", Val.str "John Doe"),
        ("email", Val.str "john@example.com"), ("age", Val.num 1),
        ("createdAt", Val.num 0)] := by
  have h := age_boundary_validation [] 1 0 johnBody (by decide) (by decide)
    (by decide) (by decide) (by decide)
  refine ⟨h.2.1, ?_⟩
  rw [h.2.2.1]
  decide

/-- C8: the token round-trip.  For every identity and issue time,
validating the issued token strictly before the 24-hour expiry yields
the identity reference (the subject id), and validating it at or after
the expiry fails with the uniform `AuthenticationError`. -/
theorem token_roundtrip (secret : String) (userId t0 now : Nat) :
    (now < t0 + jwtExpiresInSeconds →
      validateToken secret now (issueToken secret t0 userId) = .ok userId) ∧
    (t0 + jwtExpiresInSeconds ≤ now →
      validateToken secret now (issueToken secret t0 userId) =
        .error invalidToken) ∧
    invalidToken.name = "AuthenticationError" := by
  refine ⟨?_, ?_, rfl⟩
  · intro h
    simp [validateToken, issueToken, h]
  · intro h
    simp [validateToken, issueToken, Nat.not_lt.mpr h]

theorem token_roundtrip_witness :
    validateToken "topsecret" 100 (issueToken "topsecret" 0 7) = .ok 7 ∧
    validateToken "topsecret" 86400 (issueToken "topsecret" 0 7) =
      .error invalidToken :=
  ⟨(token_roundtrip "topsecret" 7 0 100).1 (by decide),
   (token_roundtrip "topsecret" 7 0 86400).2.1 (by decide)⟩

/-- C10: when the save step of the create handler fails with a storage
error whose `name` is not `ValidationError` — in particular the
duplicate-key error the unique index raises when a concurrent insert won
the race past the preliminary `findOne` check — the catch block answers
with the generic 500 `Error creating user` response, not with the
conflict response. -/
theorem nonvalidation_save_error_to_500 (store : Store) (nextId now : Nat)
    (p : PendingCreate) (e : DbError)
    (hsave : saveUser store (recOf nextId now p) = .error e)
    (hname : DbError.errName e ≠ "ValidationError") :
    savePhase store nextId now p = (store, .internal "Error creating user") ∧
    Resp.status (.internal "Error creating user") = 500 ∧
    Resp.message (.internal "Error creating user") = "Error creating user" ∧
    (∀ em, DbError.errName (.duplicateKey em) ≠ "ValidationError") ∧
    (.internal "Error creating user") ≠ Resp.conflict := by
  refine ⟨?_, rfl, rfl, fun em h => by simp [DbError.errName] at h,
    fun h => Resp.noConfusion h⟩
  unfold savePhase
  rw [hsave]
  show (if DbError.errName e = "ValidationError" then
      (store, Resp.validationErr (DbError.msgs e))
    else (store, Resp.internal "Error creating user")) =
    (store, Resp.internal "Error creating user")
  rw [if_neg hname]

theorem nonvalidation_save_error_to_500_witness :
    savePhase [johnStored] 2 0 (pendOf johnBody) =
      ([johnStored], .internal "Error creating user") :=
  (nonvalidation_save_error_to_500 [johnStored] 2 0 (pendOf johnBody)
    (.duplicateKey "john@example.com") rfl (by decide)).1

/-- C3: no successful operation that returns user records ever includes
the password-hash field in its payload: the create handler (via the
sanitising `toJSON`), the list / get / delete handlers (via
`.select('-password')`), and the register / login / profile flows all
return documents without a `password` key. -/
theorem outputs_never_contain_password_hash (store : Store)
    (nextId now uid : Nat) (b : CreateBody) (q : ListQuery)
    (secret email password : String) (t : Token) :
    respNoPwd (createUserHandler store nextId now b).2 = true ∧
    (listUsersHandler store q).all docNoPwd = true ∧
    idRespNoPwd (getUserHandler store uid) = true ∧
    idRespNoPwd (deleteUserHandler store uid).2 = true ∧
    exDocTokNoPwd (register secret store nextId now b).2 = true ∧
    exDocTokNoPwd (login secret now store email password) = true ∧
    exDocNoPwd (getProfile secret now store t) = true := by
  refine ⟨?_, ?_, ?_, ?_, ?_, ?_, ?_⟩
  · unfold createUserHandler
    cases hc : checkPhase store b with
    | inl r =>
      show respNoPwd r = true
      rcases checkPhase_inl store b r hc with h | h <;> rw [h] <;> rfl
    | inr p => exact respNoPwd_savePhase store nextId now p
  · rw [List.all_eq_true]
    intro d hd
    unfold listUsersHandler at hd
    obtain ⟨u, hu, hdu⟩ := List.mem_map.mp hd
    rw [← hdu]
    exact docNoPwd_selectNoPassword _
  · unfold getUserHandler
    cases hf : store.find? (fun v => v.id == uid) with
    | none => rfl
    | some u => exact docNoPwd_selectNoPassword _
  · unfold deleteUserHandler
    cases hf : store.find? (fun v => v.id == uid) with
    | none => rfl
    | some u => exact docNoPwd_selectNoPassword _
  · unfold register
    split_ifs with hcond
    · cases hs : saveUser store (recOf nextId now (pendOf b)) with
      | ok sp =>
        obtain ⟨s2, u2⟩ := sp
        exact docNoPwd_selectNoPassword _
      | error e =>
        cases e with
        | validation msgs => rfl
        | duplicateKey em => rfl
    · rfl
  · unfold login
    cases hf : store.find? (fun v => v.email == lowerStr email) with
    | none => rfl
    | some u =>
      show exDocTokNoPwd (if bcryptCompare password u.password then
        .ok (userToJSON u, issueToken secret now u.id)
        else .error invalidCredentials) = true
      split_ifs
      · exact docNoPwd_selectNoPassword _
      · rfl
  · unfold getProfile
    cases hv : validateToken secret now t with
    | error e => rfl
    | ok uid2 =>
      show exDocNoPwd (match store.find? (fun v => v.id == uid2) with
        | none =>
          Except.error { name := "NotFoundError", message := "User not found" }
        | some u => Except.ok (userToJSON u)) = true
      cases hf : store.find? (fun v => v.id == uid2) with
      | none => rfl
      | some u => exact docNoPwd_selectNoPassword _

theorem lexPattern_cons_nonmeta (c : Char) (l : List Char)
    (hc : ¬ c ∈ regexMetaChars) :
    lexPattern (c :: l) = .atom (.lit c) :: lexPattern l := by
  have h1 : c ≠ '\\' := by intro h; rw [h] at hc; exact hc (by decide)
  have h2 : c ≠ '.' := by intro h; rw [h] at hc; exact hc (by decide)
  have h3 : c ≠ '*' := by intro h; rw [h] at hc; exact hc (by decide)
  have h4 : c ≠ '+' := by intro h; rw [h] at hc; exact hc (by decide)
  have h5 : c ≠ '?' := by intro h; rw [h] at hc; exact hc (by decide)
  rw [lexPattern.eq_def]
  split <;> simp_all

theorem lexPattern_nonmeta (l : List Char)
    (h : ∀ c ∈ l, ¬ c ∈ regexMetaChars) :
    lexPattern l = l.map (fun c => RTok.atom (.lit c)) := by
  induction l with
  | nil => rfl
  | cons c rest ih =>
    rw [lexPattern_cons_nonmeta c rest (h c (List.mem_cons_self c rest))]
    rw [ih (fun x hx => h x (List.mem_cons_of_mem c hx))]
    rfl

theorem groupPieces_atoms (l : List Char) :
    groupPieces (l.map (fun c => RTok.atom (.lit c))) =
      l.map (fun c => RPiece.once (.lit c)) := by
  induction l with
  | nil => rfl
  | cons c rest ih =>
    cases rest with
    | nil => rfl
    | cons c2 r2 =>
      simp only [List.map] at ih ⊢
      rw [show groupPieces (RTok.atom (RAtom.lit c) :: RTok.atom (RAtom.lit c2) ::
        r2.map (fun c => RTok.atom (.lit c))) =
        RPiece.once (RAtom.lit c) :: groupPieces (RTok.atom (RAtom.lit c2) ::
        r2.map (fun c => RTok.atom (.lit c))) from rfl]
      rw [ih]

theorem matchHere_lits (p : List Char) (cs : List Char) :
    matchHere (p.map (fun c => RPiece.once (.lit c))) cs =
      leadsWith (p.map lowerChar) (cs.map lowerChar) := by
  induction p generalizing cs with
  | nil => rfl
  | cons c p' ih =>
    cases cs with
    | nil => rfl
    | cons x cs' =>
      show (atomMatch (.lit c) x &&
        matchHere (p'.map (fun c => RPiece.once (.lit c))) cs') = _
      rw [ih cs']
      rfl

theorem regexSearch_lits (p cs : List Char) :
    regexSearch (p.map (fun c => RPiece.once (.lit c))) cs =
      hasSegment (p.map lowerChar) (cs.map lowerChar) := by
  induction cs with
  | nil => simpa using matchHere_lits p []
  | cons x cs' ih =>
    show (matchHere (p.map (fun c => RPiece.once (.lit c))) (x :: cs') ||
      regexSearch (p.map (fun c => RPiece.once (.lit c))) cs') = _
    rw [matchHere_lits p (x :: cs'), ih]
    rfl

theorem regexMatchCI_eq_containsCI {pat s : String}
    (h : regexMetaFree pat = true) : regexMatchCI pat s = containsCI pat s := by
  have hm : ∀ c ∈ pat.data, ¬ c ∈ regexMetaChars := by
    rw [regexMetaFree, List.all_eq_true] at h
    intro c hc
    simpa using h c hc
  unfold regexMatchCI containsCI
  rw [lexPattern_nonmeta pat.data hm, groupPieces_atoms, regexSearch_lits]
  rfl

theorem strFilter_iff_metafree (o : Option String) (s : String)
    (hm : ∀ p, o = some p → regexMetaFree p = true) :
    ((if truthyS o then regexMatchCI (getS o) s else true) = true) ↔
      (∀ p, o = some p → p ≠ "" → containsCI p s = true) := by
  cases o with
  | none => simp [truthyS]
  | some p =>
    have hco : regexMatchCI p s = containsCI p s :=
      regexMatchCI_eq_containsCI (hm p rfl)
    by_cases hp : p = ""
    · simp [truthyS, hp]
    · simp [truthyS, getS, hp, hco]

theorem ageFilter_iff (om oM : Option Int) (a : Int) :
    ((if om.isSome || oM.isSome then
        (if om.isSome then decide (getI om ≤ a) else true) &&
        (if oM.isSome then decide (a ≤ getI oM) else true)
      else true) = true) ↔
      ((∀ m, om = some m → m ≤ a) ∧ (∀ m, oM = some m → a ≤ m)) := by
  cases om <;> cases oM <;> simp [getI]

theorem matchesFilter_iff_metafree (q : ListQuery) (u : UserRec)
    (hname : ∀ p, q.name = some p → regexMetaFree p = true)
    (hemail : ∀ p, q.email = some p → regexMetaFree p = true) :
    matchesFilter q u = true ↔ SpecMatches q u := by
  unfold matchesFilter SpecMatches
  simp only [Bool.and_eq_true]
  rw [and_assoc]
  exact and_congr (strFilter_iff_metafree q.name u.name hname)
    (and_congr (strFilter_iff_metafree q.email u.email hemail)
      (ageFilter_iff q.minAge q.maxAge u.age))

/-- C9 (counterexample): the list handler feeds the raw query parameter
to `$regex` (`server.js` lines 36 and 41), so a pattern containing the
regex metacharacter `.` matches records that do not contain the pattern
as a substring: filtering by email `john.doe` returns the stored record
whose email is `johnxdoe@example.com`, which does not contain
`john.doe` case-insensitively — the result is not "exactly the records
matching the substring criterion". -/
theorem regex_dot_filter_matches_nonsubstring :
    listUsersHandler [dotUser]
      { name := none, email := some "john.doe",
        minAge := none, maxAge := none } =
      [[("_id", Val.num 4), ("name", Val.str "John X Doe"),
        ("email", Val.str "johnxdoe@example.com"), ("age", Val.num 41),
        ("createdAt", Val.num 0)]] ∧
    containsCI "john.doe" "johnxdoe@example.com" = false ∧
    regexMatchCI "john.doe" "johnxdoe@example.com" = true := by
  refine ⟨by decide, by decide, by decide⟩

/-- C9 (amended): for every `list(filter)` call whose name and email
patterns are free of regex metacharacters, the result contains exactly
the stored records matching every supplied criterion — name containing
the pattern case-insensitively, email containing the pattern
case-insensitively, and age within the inclusive `[minAge, maxAge]`
bounds, an unsupplied criterion imposing no constraint — each record
projected without the password field.  (When a pattern does contain
metacharacters it is interpreted as a case-insensitive regular
expression, as the counterexample shows.) -/
theorem list_filter_exact_for_metafree_patterns (store : Store)
    (q : ListQuery) (d : List (String × Val))
    (hname : ∀ p, q.name = some p → regexMetaFree p = true)
    (hemail : ∀ p, q.email = some p → regexMetaFree p = true) :
    d ∈ listUsersHandler store q ↔
      ∃ u, u ∈ store ∧ SpecMatches q u ∧ d = selectNoPassword (userDoc u) := by
  unfold listUsersHandler
  constructor
  · intro hd
    obtain ⟨u, hu, hdu⟩ := List.mem_map.mp hd
    obtain ⟨hus, hmf⟩ := List.mem_filter.mp hu
    exact ⟨u, hus, (matchesFilter_iff_metafree q u hname hemail).mp hmf,
      hdu.symm⟩
  · rintro ⟨u, hus, hsm, rfl⟩
    exact List.mem_map.mpr ⟨u,
      List.mem_filter.mpr ⟨hus,
        (matchesFilter_iff_metafree q u hname hemail).mpr hsm⟩, rfl⟩

theorem list_filter_exact_for_metafree_patterns_witness :
    [("_id", Val.num 1), ("name", Val.str "John Doe"),
     ("email", Val.str "john@example.com"), ("age", Val.num 30),
     ("createdAt", Val.num 0)] ∈
      listUsersHandler [johnStored]
        { name := some "john", email := none,
          minAge := some 25, maxAge := some 30 } := by
  apply (list_filter_exact_for_metafree_patterns [johnStored]
    { name := some "john", email := none,
      minAge := some 25, maxAge := some 30 } _
    (fun p hp => by cases Option.some.inj hp; decide)
    (fun p hp => Option.noConfusion hp)).mpr
  refine ⟨johnStored, List.mem_singleton_self johnStored, ?_, by decide⟩
  refine ⟨?_, ?_, ?_, ?_⟩
  · intro p hp hne
    cases Option.some.inj hp
    decide
  · intro p hp hne
    exact Option.noConfusion hp
  · intro m hm
    cases Option.some.inj hm
    decide
  · intro m hm
    cases Option.some.inj hm
    decide

/-- C4 (counterexample): under the interleaving in which both requests
pass the `findOne` duplicate check before either `save` runs, exactly
one insert succeeds (the unique index is atomic) but the losing request
is answered with the generic 500 `Error creating user`, not with the
conflict response — the application-level `findOne`-then-`save` sequence
of `server.js` lines 137-152 maps the duplicate-key error through its
generic catch branch. -/
theorem race_loser_gets_500_not_conflict :
    (runRace 1 2 0 [true, false, true, false]
      { store := [], r1 := .start johnBody, r2 := .start johnBody }).r2 =
      .done (.internal "Error creating user") ∧
    ReqState.done (.internal "Error creating user") ≠
      ReqState.done .conflict ∧
    (runRace 1 2 0 [true, false, true, false]
      { store := [], r1 := .start johnBody, r2 := .start johnBody }).r1 =
      .done (.created [("_id", Val.num 1), ("name", Val.str "John Doe"),
        ("email", Val.str "john@example.com"), ("age", Val.num 30),
        ("createdAt", Val.num 0)]) ∧
    Resp.status (.internal "Error creating user") = 500 :=
  ⟨by decide, by decide, by decide, rfl⟩

/-- C4 (amended): for two concurrent create requests with the same
(fresh, valid) body, exactly one succeeds — the storage layer's unique
index is an atomic compare-and-insert, so the store gains exactly one
record — but the loser's failure depends on the interleaving: when both
preliminary `findOne` checks run before either save, the loser receives
the generic 500 internal failure (the mapped duplicate-key error);
only when the loser's check runs after the winner's save does it receive
the conflict response.  The application still performs its own
read-then-write `findOne` check before saving. -/
theorem race_duplicate_email (s0 : Store) (n1 n2 now : Nat) (b : CreateBody)
    (hn : truthyS b.name = true) (he : truthyS b.email = true)
    (hp : truthyS b.password = true) (ha : truthyI b.age = true)
    (hlen : 6 ≤ (getS b.password).data.length)
    (h1 : 1 ≤ getI b.age) (h2 : getI b.age ≤ 120)
    (hfresh : ∀ v ∈ s0, v.email ≠ lowerStr (getS b.email)) :
    runRace n1 n2 now [true, false, true, false]
        { store := s0, r1 := .start b, r2 := .start b } =
      { store := s0 ++ [hashedRec n1 now (pendOf b)],
        r1 := .done (.created (userToJSON (hashedRec n1 now (pendOf b)))),
        r2 := .done (.internal "Error creating user") } ∧
    runRace n1 n2 now [true, true, false, false]
        { store := s0, r1 := .start b, r2 := .start b } =
      { store := s0 ++ [hashedRec n1 now (pendOf b)],
        r1 := .done (.created (userToJSON (hashedRec n1 now (pendOf b)))),
        r2 := .done .conflict } ∧
    Resp.status (.internal "Error creating user") = 500 ∧
    Resp.status .conflict = 400 := by
  have hval1 : schemaValidate (lowRec n1 now (pendOf b)) = [] :=
    schemaValidate_nil (getS_ne_of_truthy hn)
      (lowerStr_ne_empty (getS_ne_of_truthy he)) hlen h1 h2
  have hval2 : schemaValidate (lowRec n2 now (pendOf b)) = [] :=
    schemaValidate_nil (getS_ne_of_truthy hn)
      (lowerStr_ne_empty (getS_ne_of_truthy he)) hlen h1 h2
  have hcp : checkPhase s0 b = .inr (pendOf b) :=
    checkPhase_pass s0 b hn he hp ha hfresh
  have hsp1 : savePhase s0 n1 now (pendOf b) =
      (s0 ++ [hashedRec n1 now (pendOf b)],
       .created (userToJSON (hashedRec n1 now (pendOf b)))) :=
    savePhase_ok s0 n1 now (pendOf b) hval1 hfresh
  have hmem : hashedRec n1 now (pendOf b) ∈ s0 ++ [hashedRec n1 now (pendOf b)] :=
    List.mem_append.mpr (Or.inr (List.mem_singleton_self _))
  have hsp2 : savePhase (s0 ++ [hashedRec n1 now (pendOf b)]) n2 now (pendOf b) =
      (s0 ++ [hashedRec n1 now (pendOf b)], .internal "Error creating user") :=
    savePhase_dup (s0 ++ [hashedRec n1 now (pendOf b)]) n2 now (pendOf b)
      (hashedRec n1 now (pendOf b)) hval2 hmem rfl
  have hcp2 : checkPhase (s0 ++ [hashedRec n1 now (pendOf b)]) b = .inl .conflict :=
    checkPhase_hit (s0 ++ [hashedRec n1 now (pendOf b)]) b
      (hashedRec n1 now (pendOf b)) hn he hp ha hmem rfl
  refine ⟨?_, ?_, rfl, rfl⟩
  · simp [runRace, stepRace, stepReq, hcp, hsp1, hsp2]
  · simp [runRace, stepRace, stepReq, hcp, hsp1, hcp2]

theorem race_duplicate_email_witness :
    (runRace 1 2 0 [true, true, false, false]
      { store := [], r1 := .start johnBody, r2 := .start johnBody }).r2 =
      .done .conflict := by
  have h := (race_duplicate_email [] 1 2 0 johnBody (by decide) (by decide)
    (by decide) (by decide) (by decide) (by decide) (by decide) (by decide)).2.1
  rw [h]
